import Mathlib

/-
  Verification of the CiliaSim computational kernel
  (src/CiliaSim/jit_functions.py) against its specification.

  The kernel is embedded shallowly: numpy float arrays become functions
  into the real numbers, the row loop of calculate_force_matrix becomes a
  left fold over the list of row indices with an explicit state record,
  and array writes become pointwise function updates guarded by the same
  index conditions the source uses.
-/

namespace CiliaSim

/-! ## Geometry primitives (jit_functions.py lines 11-24) -/

/-- Cross term of the Shoelace formula for one pair of consecutive
vertices: x_i * y_succ - y_i * x_succ. -/
def shoelace_cross (p q : ℝ × ℝ) : ℝ := p.1 * q.2 - p.2 * q.1

/-- The signed Shoelace sum of polygon_area: the source pairs each vertex
with its cyclic successor (shifted_x, shifted_y are the arrays rotated by
one), multiplies and sums.  List.rotate 1 is exactly that shift. -/
def shoelace_sum (vertices : List (ℝ × ℝ)) : ℝ :=
  (List.zipWith shoelace_cross vertices (vertices.rotate 1)).sum

/-- polygon_area (lines 12-24): half the absolute value of the Shoelace
sum over the closed vertex loop. -/
def polygon_area (vertices : List (ℝ × ℝ)) : ℝ :=
  0.5 * |shoelace_sum vertices|

/-- Sum of shoelace_cross over consecutive (non-cyclic) pairs of a vertex
list; helper for reasoning about shoelace_sum under list reversal. -/
def shoelace_consec : List (ℝ × ℝ) → ℝ
  | [] => 0
  | [_] => 0
  | p :: q :: l => shoelace_cross p q + shoelace_consec (q :: l)

lemma shoelace_cross_self (p : ℝ × ℝ) : shoelace_cross p p = 0 := by
  simp [shoelace_cross]; ring

lemma shoelace_cross_antisymm (p q : ℝ × ℝ) :
    shoelace_cross p q = -shoelace_cross q p := by
  simp [shoelace_cross]; ring

lemma shoelace_consec_cons_cons (p q : ℝ × ℝ) (l : List (ℝ × ℝ)) :
    shoelace_consec (p :: q :: l) = shoelace_cross p q + shoelace_consec (q :: l) := rfl

/-- The cyclic Shoelace sum of a nonempty list equals the consecutive-pair
sum of the list with its own head appended at the end. -/
lemma shoelace_sum_eq_consec (v : ℝ × ℝ) (l : List (ℝ × ℝ)) :
    shoelace_sum (v :: l) = shoelace_consec ((v :: l) ++ [v]) := by
  have key : ∀ (l : List (ℝ × ℝ)) (v w : ℝ × ℝ),
      (List.zipWith shoelace_cross (v :: l) (l ++ [w])).sum =
      shoelace_consec ((v :: l) ++ [w]) := by
    intro l
    induction l with
    | nil => intro v w; simp [shoelace_consec]
    | cons q l' ih =>
        intro v w
        simp only [List.cons_append, List.zipWith_cons_cons, List.sum_cons,
          shoelace_consec_cons_cons]
        rw [ih q w]
        simp
  have hrot : (v :: l).rotate 1 = l ++ [v] := by
    rw [List.rotate_cons_succ, List.rotate_zero]
  rw [shoelace_sum, hrot, key]

/-- The final vertex of a nonempty vertex list given as head and tail. -/
def last_vertex (p : ℝ × ℝ) : List (ℝ × ℝ) → ℝ × ℝ
  | [] => p
  | q :: l => last_vertex q l

/-- The final vertex of a vertex list, defaulting to the origin. -/
def last_vertexD : List (ℝ × ℝ) → ℝ × ℝ
  | [] => (0, 0)
  | p :: l => last_vertex p l

lemma last_vertex_append (l : List (ℝ × ℝ)) (p x : ℝ × ℝ) :
    last_vertex p (l ++ [x]) = x := by
  induction l generalizing p with
  | nil => rfl
  | cons q l' ih => simpa [last_vertex] using ih q

lemma last_vertexD_append (m : List (ℝ × ℝ)) (x : ℝ × ℝ) :
    last_vertexD (m ++ [x]) = x := by
  cases m with
  | nil => rfl
  | cons p t => simpa [last_vertexD] using last_vertex_append t p x

lemma shoelace_consec_append (l : List (ℝ × ℝ)) (p x : ℝ × ℝ) :
    shoelace_consec ((p :: l) ++ [x]) =
    shoelace_consec (p :: l) + shoelace_cross (last_vertex p l) x := by
  induction l generalizing p with
  | nil => simp [shoelace_consec, last_vertex]
  | cons q l' ih =>
      simp only [List.cons_append, shoelace_consec_cons_cons]
      rw [← List.cons_append, ih q]
      simp [shoelace_consec_cons_cons, last_vertex]
      ring

lemma headI_reverse_cons (l : List (ℝ × ℝ)) (v : ℝ × ℝ) :
    ((v :: l).reverse).headI = last_vertex v l := by
  induction l generalizing v with
  | nil => simp [last_vertex]
  | cons q l' ih =>
      have hne : (q :: l').reverse ≠ [] := by simp
      obtain ⟨a, t, h⟩ := List.exists_cons_of_ne_nil hne
      calc ((v :: q :: l').reverse).headI
          = ((q :: l').reverse ++ [v]).headI := by rw [List.reverse_cons]
        _ = a := by rw [h]; rfl
        _ = ((q :: l').reverse).headI := by rw [h]; rfl
        _ = last_vertex q l' := ih q
        _ = last_vertex v (q :: l') := rfl

lemma shoelace_consec_reverse :
    ∀ m : List (ℝ × ℝ), shoelace_consec m.reverse = -shoelace_consec m
  | [] => by simp [shoelace_consec]
  | [p] => by simp [shoelace_consec]
  | p :: q :: t => by
      have ih := shoelace_consec_reverse (q :: t)
      have hne : (q :: t).reverse ≠ [] := by simp
      obtain ⟨a, t', h⟩ := List.exists_cons_of_ne_nil hne
      have hrw : (p :: q :: t).reverse = (q :: t).reverse ++ [p] := by
        rw [List.reverse_cons]
      rw [hrw, h, shoelace_consec_append]
      have ha : last_vertex a t' = last_vertexD ((q :: t).reverse) := by
        rw [h]; rfl
      have hD : last_vertexD ((q :: t).reverse) = q := by
        rw [List.reverse_cons, last_vertexD_append]
      rw [ha, hD, ← h, ih, shoelace_consec_cons_cons,
        shoelace_cross_antisymm q p]
      ring

/-- shoelace_sum in head-default form for nonempty lists. -/
lemma shoelace_sum_eq_consec_headI (m : List (ℝ × ℝ)) (h : m ≠ []) :
    shoelace_sum m = shoelace_consec (m ++ [m.headI]) := by
  cases m with
  | nil => exact absurd rfl h
  | cons v l => exact shoelace_sum_eq_consec v l

/-- Reversing the vertex order negates the Shoelace sum. -/
lemma shoelace_sum_reverse (m : List (ℝ × ℝ)) :
    shoelace_sum m.reverse = -shoelace_sum m := by
  cases m with
  | nil => simp [shoelace_sum]
  | cons v l =>
      have hne : (v :: l).reverse ≠ [] := by simp
      rw [shoelace_sum_eq_consec_headI _ hne]
      have hx : (v :: l).reverse ++ [((v :: l).reverse).headI] =
          (((v :: l).reverse).headI :: (v :: l)).reverse :=
        (List.reverse_cons _ _).symm
      rw [hx, shoelace_consec_reverse, headI_reverse_cons,
        shoelace_sum_eq_consec v l, shoelace_consec_append l v v,
        shoelace_consec_cons_cons, shoelace_cross_antisymm]
      ring

/-! ## Force-matrix assembler (jit_functions.py lines 40-80) -/

/-- The four working matrices of calculate_force_matrix, all initialised
to zero (lines 51-54).  Matrices over n cells are functions on indices. -/
structure FMState (n : ℕ) where
  spring_matrix : Fin n → Fin n → ℝ
  pressure_matrix : Fin n → Fin n → ℝ
  distance_matrix : Fin n → Fin n → ℝ
  unit_vector_matrix : Fin n → Fin n → ℝ × ℝ

/-- The all-zero initial state (np.zeros, lines 51-54). -/
def FMState.init (n : ℕ) : FMState n :=
  ⟨fun _ _ => 0, fun _ _ => 0, fun _ _ => 0, fun _ _ => (0, 0)⟩

/-- np.nonzero(adjacency_matrix i) (line 57): the row indices whose
adjacency entry is set, in increasing order. -/
def neighbours {n : ℕ} (adjacency_matrix : Fin n → Fin n → Bool) (i : Fin n) :
    List (Fin n) :=
  (List.finRange n).filter fun j => adjacency_matrix i j

/-- Euclidean distance from cell i to cell j (lines 61-62: difference of
the position rows, then sqrt of the sum of squares). -/
noncomputable def cell_distance {n : ℕ} (cell_points : Fin n → ℝ × ℝ)
    (i j : Fin n) : ℝ :=
  Real.sqrt (((cell_points j).1 - (cell_points i).1) ^ 2 +
    ((cell_points j).2 - (cell_points i).2) ^ 2)

/-- Unit vector from cell i toward cell j (line 63: difference divided by
distance, componentwise). -/
noncomputable def cell_unit_vector {n : ℕ} (cell_points : Fin n → ℝ × ℝ)
    (i j : Fin n) : ℝ × ℝ :=
  (((cell_points j).1 - (cell_points i).1) / cell_distance cell_points i j,
   ((cell_points j).2 - (cell_points i).2) / cell_distance cell_points i j)

/-- One iteration of the row loop (lines 56-74) for row i.  Rows with no
neighbours are skipped (continue, lines 58-59).  The distance, unit
vector and spring writes touch only entries (i, q) with q a neighbour of
i; the pressure write (lines 70-74) additionally writes the mirrored
entries (q, i), and is skipped for boundary-type rows. -/
noncomputable def fm_step {n : ℕ} (target_spring_length : ℝ)
    (cell_points : Fin n → ℝ × ℝ) (cell_types : Fin n → ℤ)
    (target_areas : Fin n → ℝ) (voronoi_vertices : Fin n → List (ℝ × ℝ))
    (adjacency_matrix : Fin n → Fin n → Bool)
    (s : FMState n) (i : Fin n) : FMState n :=
  if (neighbours adjacency_matrix i).length = 0 then s
  else
    { spring_matrix := fun p q =>
        if p = i ∧ q ∈ neighbours adjacency_matrix i then
          target_spring_length - cell_distance cell_points i q
        else s.spring_matrix p q
      pressure_matrix :=
        if cell_types i ≠ 1 then
          fun p q =>
            if p = i ∧ q ∈ neighbours adjacency_matrix i then
              (target_areas i - polygon_area (voronoi_vertices i)) /
                ((neighbours adjacency_matrix i).length : ℝ)
            else if q = i ∧ p ∈ neighbours adjacency_matrix i then
              (target_areas i - polygon_area (voronoi_vertices i)) /
                ((neighbours adjacency_matrix i).length : ℝ)
            else s.pressure_matrix p q
        else s.pressure_matrix
      distance_matrix := fun p q =>
        if p = i ∧ q ∈ neighbours adjacency_matrix i then
          cell_distance cell_points i q
        else s.distance_matrix p q
      unit_vector_matrix := fun p q =>
        if p = i ∧ q ∈ neighbours adjacency_matrix i then
          cell_unit_vector cell_points i q
        else s.unit_vector_matrix p q }

/-- The full row loop of calculate_force_matrix: a left fold of fm_step
over rows 0, 1, ..., n-1 starting from the zero matrices. -/
noncomputable def fm_loop (n : ℕ) (target_spring_length : ℝ)
    (cell_points : Fin n → ℝ × ℝ) (cell_types : Fin n → ℤ)
    (target_areas : Fin n → ℝ) (voronoi_vertices : Fin n → List (ℝ × ℝ))
    (adjacency_matrix : Fin n → Fin n → Bool) : FMState n :=
  (List.finRange n).foldl
    (fm_step target_spring_length cell_points cell_types target_areas
      voronoi_vertices adjacency_matrix)
    (FMState.init n)

/-- All matrices computed by calculate_force_matrix, including the
post-loop stages: the loop output, the spring matrix after boundary
damping (line 76), after clipping (line 77), and the force tensor
(line 78). -/
structure FMResult (n : ℕ) where
  spring_matrix : Fin n → Fin n → ℝ
  pressure_matrix : Fin n → Fin n → ℝ
  distance_matrix : Fin n → Fin n → ℝ
  unit_vector_matrix : Fin n → Fin n → ℝ × ℝ
  spring_damped : Fin n → Fin n → ℝ
  spring_clipped : Fin n → Fin n → ℝ
  force_matrix : Fin n → Fin n → ℝ × ℝ

/-- calculate_force_matrix (lines 40-80) with every intermediate stage
exposed: after the row loop, rows of boundary-type cells are damped by
0.1 (line 76), all spring values are clipped from below at
-critical_length_delta (line 77, np.clip with no upper bound), and the
force tensor is the elementwise product of spring + pressure with the
unit vectors (line 78). -/
noncomputable def calculate_force_matrix_full (n : ℕ)
    (target_spring_length critical_length_delta : ℝ)
    (cell_points : Fin n → ℝ × ℝ) (cell_types : Fin n → ℤ)
    (target_areas : Fin n → ℝ) (voronoi_vertices : Fin n → List (ℝ × ℝ))
    (adjacency_matrix : Fin n → Fin n → Bool) : FMResult n :=
  let s := fm_loop n target_spring_length cell_points cell_types
    target_areas voronoi_vertices adjacency_matrix
  let spring_damped := fun p q =>
    if cell_types p = 1 then 0.1 * s.spring_matrix p q else s.spring_matrix p q
  let spring_clipped := fun p q =>
    max (spring_damped p q) (-critical_length_delta)
  { spring_matrix := s.spring_matrix
    pressure_matrix := s.pressure_matrix
    distance_matrix := s.distance_matrix
    unit_vector_matrix := s.unit_vector_matrix
    spring_damped := spring_damped
    spring_clipped := spring_clipped
    force_matrix := fun p q =>
      ((spring_clipped p q + s.pressure_matrix p q) *
          (s.unit_vector_matrix p q).1,
       (spring_clipped p q + s.pressure_matrix p q) *
          (s.unit_vector_matrix p q).2) }

/-- The pair actually returned by calculate_force_matrix (line 80):
the force tensor and the distance matrix. -/
noncomputable def calculate_force_matrix (n : ℕ)
    (target_spring_length critical_length_delta : ℝ)
    (cell_points : Fin n → ℝ × ℝ) (cell_types : Fin n → ℤ)
    (target_areas : Fin n → ℝ) (voronoi_vertices : Fin n → List (ℝ × ℝ))
    (adjacency_matrix : Fin n → Fin n → Bool) :
    (Fin n → Fin n → ℝ × ℝ) × (Fin n → Fin n → ℝ) :=
  ((calculate_force_matrix_full n target_spring_length critical_length_delta
      cell_points cell_types target_areas voronoi_vertices
      adjacency_matrix).force_matrix,
   (calculate_force_matrix_full n target_spring_length critical_length_delta
      cell_points cell_types target_areas voronoi_vertices
      adjacency_matrix).distance_matrix)

section ForceMatrixLemmas

variable {n : ℕ} (target_spring_length critical_length_delta : ℝ)
variable (cell_points : Fin n → ℝ × ℝ) (cell_types : Fin n → ℤ)
variable (target_areas : Fin n → ℝ) (voronoi_vertices : Fin n → List (ℝ × ℝ))
variable (adjacency_matrix : Fin n → Fin n → Bool)

lemma mem_neighbours {i q : Fin n} :
    q ∈ neighbours adjacency_matrix i ↔ adjacency_matrix i q = true := by
  simp [neighbours, List.mem_filter, List.mem_finRange]

lemma neighbours_length_zero {i : Fin n}
    (h : (neighbours adjacency_matrix i).length = 0) (q : Fin n) :
    ¬adjacency_matrix i q = true := by
  intro hq
  rw [List.length_eq_zero] at h
  exact (List.eq_nil_iff_forall_not_mem).1 h q
    ((mem_neighbours adjacency_matrix).2 hq)

lemma fm_step_spring (s : FMState n) (i p q : Fin n) :
    (fm_step target_spring_length cell_points cell_types target_areas
      voronoi_vertices adjacency_matrix s i).spring_matrix p q =
    if p = i ∧ adjacency_matrix p q = true then
      target_spring_length - cell_distance cell_points p q
    else s.spring_matrix p q := by
  by_cases hlen : (neighbours adjacency_matrix i).length = 0
  · simp only [fm_step, if_pos hlen]
    rw [if_neg]
    rintro ⟨rfl, hadj⟩
    exact neighbours_length_zero adjacency_matrix hlen q hadj
  · simp only [fm_step, if_neg hlen]
    by_cases hpi : p = i
    · subst hpi
      by_cases hadj : adjacency_matrix p q = true
      · rw [if_pos ⟨rfl, (mem_neighbours adjacency_matrix).2 hadj⟩,
          if_pos ⟨rfl, hadj⟩]
      · rw [if_neg (fun h => hadj ((mem_neighbours adjacency_matrix).1 h.2)),
          if_neg (fun h => hadj h.2)]
    · rw [if_neg (fun h => hpi h.1), if_neg (fun h => hpi h.1)]

lemma fm_step_distance (s : FMState n) (i p q : Fin n) :
    (fm_step target_spring_length cell_points cell_types target_areas
      voronoi_vertices adjacency_matrix s i).distance_matrix p q =
    if p = i ∧ adjacency_matrix p q = true then
      cell_distance cell_points p q
    else s.distance_matrix p q := by
  by_cases hlen : (neighbours adjacency_matrix i).length = 0
  · simp only [fm_step, if_pos hlen]
    rw [if_neg]
    rintro ⟨rfl, hadj⟩
    exact neighbours_length_zero adjacency_matrix hlen q hadj
  · simp only [fm_step, if_neg hlen]
    by_cases hpi : p = i
    · subst hpi
      by_cases hadj : adjacency_matrix p q = true
      · rw [if_pos ⟨rfl, (mem_neighbours adjacency_matrix).2 hadj⟩,
          if_pos ⟨rfl, hadj⟩]
      · rw [if_neg (fun h => hadj ((mem_neighbours adjacency_matrix).1 h.2)),
          if_neg (fun h => hadj h.2)]
    · rw [if_neg (fun h => hpi h.1), if_neg (fun h => hpi h.1)]

lemma fm_step_unit_vector (s : FMState n) (i p q : Fin n) :
    (fm_step target_spring_length cell_points cell_types target_areas
      voronoi_vertices adjacency_matrix s i).unit_vector_matrix p q =
    if p = i ∧ adjacency_matrix p q = true then
      cell_unit_vector cell_points p q
    else s.unit_vector_matrix p q := by
  by_cases hlen : (neighbours adjacency_matrix i).length = 0
  · simp only [fm_step, if_pos hlen]
    rw [if_neg]
    rintro ⟨rfl, hadj⟩
    exact neighbours_length_zero adjacency_matrix hlen q hadj
  · simp only [fm_step, if_neg hlen]
    by_cases hpi : p = i
    · subst hpi
      by_cases hadj : adjacency_matrix p q = true
      · rw [if_pos ⟨rfl, (mem_neighbours adjacency_matrix).2 hadj⟩,
          if_pos ⟨rfl, hadj⟩]
      · rw [if_neg (fun h => hadj ((mem_neighbours adjacency_matrix).1 h.2)),
          if_neg (fun h => hadj h.2)]
    · rw [if_neg (fun h => hpi h.1), if_neg (fun h => hpi h.1)]

/-- Each row iteration writes its pressure contribution into both the row
entry (i, q) and the mirrored entry (q, i), so a symmetric pressure
matrix stays symmetric. -/
lemma fm_step_pressure_symm (s : FMState n) (i : Fin n)
    (hs : ∀ p q, s.pressure_matrix p q = s.pressure_matrix q p) (p q : Fin n) :
    (fm_step target_spring_length cell_points cell_types target_areas
      voronoi_vertices adjacency_matrix s i).pressure_matrix p q =
    (fm_step target_spring_length cell_points cell_types target_areas
      voronoi_vertices adjacency_matrix s i).pressure_matrix q p := by
  by_cases hlen : (neighbours adjacency_matrix i).length = 0
  · simp only [fm_step, if_pos hlen]
    exact hs p q
  · simp only [fm_step, if_neg hlen]
    by_cases hct : cell_types i ≠ 1
    · simp only [if_pos hct]
      split_ifs <;> first | rfl | exact hs p q
    · simp only [if_neg hct]
      exact hs p q

/-- Closed form of the spring matrix after folding fm_step over a list of
rows: entry (p, q) holds the spring value iff row p was processed and q is
adjacent to p, and is otherwise untouched. -/
lemma foldl_spring (L : List (Fin n)) (s : FMState n) (p q : Fin n) :
    ((L.foldl (fm_step target_spring_length cell_points cell_types
        target_areas voronoi_vertices adjacency_matrix) s).spring_matrix) p q =
    if p ∈ L ∧ adjacency_matrix p q = true then
      target_spring_length - cell_distance cell_points p q
    else s.spring_matrix p q := by
  induction L generalizing s with
  | nil => simp
  | cons i L' ih =>
      rw [List.foldl_cons, ih, fm_step_spring]
      by_cases hpi : p = i
      · subst hpi
        by_cases hadj : adjacency_matrix p q = true
        · by_cases hpL : p ∈ L' <;> simp [hpL, hadj, List.mem_cons]
        · simp [hadj]
      · simp [hpi, List.mem_cons]

/-- Closed form of the distance matrix after the fold. -/
lemma foldl_distance (L : List (Fin n)) (s : FMState n) (p q : Fin n) :
    ((L.foldl (fm_step target_spring_length cell_points cell_types
        target_areas voronoi_vertices adjacency_matrix) s).distance_matrix) p q =
    if p ∈ L ∧ adjacency_matrix p q = true then
      cell_distance cell_points p q
    else s.distance_matrix p q := by
  induction L generalizing s with
  | nil => simp
  | cons i L' ih =>
      rw [List.foldl_cons, ih, fm_step_distance]
      by_cases hpi : p = i
      · subst hpi
        by_cases hadj : adjacency_matrix p q = true
        · by_cases hpL : p ∈ L' <;> simp [hpL, hadj, List.mem_cons]
        · simp [hadj]
      · simp [hpi, List.mem_cons]

/-- Closed form of the unit-vector matrix after the fold. -/
lemma foldl_unit_vector (L : List (Fin n)) (s : FMState n) (p q : Fin n) :
    ((L.foldl (fm_step target_spring_length cell_points cell_types
        target_areas voronoi_vertices adjacency_matrix) s).unit_vector_matrix) p q =
    if p ∈ L ∧ adjacency_matrix p q = true then
      cell_unit_vector cell_points p q
    else s.unit_vector_matrix p q := by
  induction L generalizing s with
  | nil => simp
  | cons i L' ih =>
      rw [List.foldl_cons, ih, fm_step_unit_vector]
      by_cases hpi : p = i
      · subst hpi
        by_cases hadj : adjacency_matrix p q = true
        · by_cases hpL : p ∈ L' <;> simp [hpL, hadj, List.mem_cons]
        · simp [hadj]
      · simp [hpi, List.mem_cons]

/-- Folding fm_step over any list of rows preserves symmetry of the
pressure matrix. -/
lemma foldl_pressure_symm (L : List (Fin n)) (s : FMState n)
    (hs : ∀ p q, s.pressure_matrix p q = s.pressure_matrix q p) (p q : Fin n) :
    ((L.foldl (fm_step target_spring_length cell_points cell_types
        target_areas voronoi_vertices adjacency_matrix) s).pressure_matrix) p q =
    ((L.foldl (fm_step target_spring_length cell_points cell_types
        target_areas voronoi_vertices adjacency_matrix) s).pressure_matrix) q p := by
  induction L generalizing s with
  | nil => exact hs p q
  | cons i L' ih =>
      rw [List.foldl_cons]
      exact ih _ (fun p' q' =>
        fm_step_pressure_symm target_spring_length cell_points cell_types
          target_areas voronoi_vertices adjacency_matrix s i hs p' q')

end ForceMatrixLemmas

/-! ## Boundary reflection (jit_functions.py lines 83-103) -/

/-- The cosine of the angle between the vectors ac = c - a and
bc = c - b (lines 85-91): their dot product over the product of their
norms. -/
noncomputable def angle_cos (a b c : ℝ × ℝ) : ℝ :=
  ((c.1 - a.1) * (c.1 - b.1) + (c.2 - a.2) * (c.2 - b.2)) /
    (Real.sqrt ((c.1 - a.1) ^ 2 + (c.2 - a.2) ^ 2) *
      Real.sqrt ((c.1 - b.1) ^ 2 + (c.2 - b.2) ^ 2))

/-- The point returned in the reflecting branch (lines 93-100): c
mirrored across p = a + projection of ac onto the unit edge direction
(b - a) / norm (b - a), that is 2 * p - c. -/
noncomputable def reflection_point (a b c : ℝ × ℝ) : ℝ × ℝ :=
  let edge_norm := Real.sqrt ((b.1 - a.1) ^ 2 + (b.2 - a.2) ^ 2)
  let edge_unit_vector := ((b.1 - a.1) / edge_norm, (b.2 - a.2) / edge_norm)
  let projection_length :=
    (c.1 - a.1) * edge_unit_vector.1 + (c.2 - a.2) * edge_unit_vector.2
  let projection_vector :=
    (projection_length * edge_unit_vector.1,
     projection_length * edge_unit_vector.2)
  (2 * (a.1 + projection_vector.1) - c.1, 2 * (a.2 + projection_vector.2) - c.2)

/-- calculate_boundary_reflection (lines 83-103): reflect when the angle
cosine is negative, otherwise flag false with an unspecified placeholder
point (np.empty_like, modelled as the origin). -/
noncomputable def calculate_boundary_reflection (a b c : ℝ × ℝ) :
    Bool × (ℝ × ℝ) :=
  if angle_cos a b c < 0 then (true, reflection_point a b c)
  else (false, (0, 0))

/-- Two-dimensional cross product, used to state collinearity and
point-to-line distance for the mirror-image property. -/
def cross2 (u v : ℝ × ℝ) : ℝ := u.1 * v.2 - u.2 * v.1

/-- q lies on the (infinite) line through a and b. -/
def on_line (a b q : ℝ × ℝ) : Prop :=
  ∃ t : ℝ, q = (a.1 + t * (b.1 - a.1), a.2 + t * (b.2 - a.2))

/-- Euclidean distance from point q to the line through a and b. -/
noncomputable def dist_to_line (a b q : ℝ × ℝ) : ℝ :=
  |cross2 (b.1 - a.1, b.2 - a.2) (q.1 - a.1, q.2 - a.2)| /
    Real.sqrt ((b.1 - a.1) ^ 2 + (b.2 - a.2) ^ 2)

/-! ## Hexagonal lattice generator (jit_functions.py lines 106-125) -/

/-- Ring count of hexagonal_grid_layout (line 108): the integer floor of
1/2 + sqrt(12 * num_cells - 3) / 6.  For num_cells less than 1 the
radicand is negative; the real square root of a negative number is 0
here, where the source produces NaN and an implementation-defined int
cast, and in both cases no rings are generated. -/
noncomputable def num_rings (num_cells : ℤ) : ℤ :=
  ⌊1 / 2 + Real.sqrt (12 * (num_cells : ℝ) - 3) / 6⌋

/-- The j-th point of ring i (lines 117-123): evenly spaced by angle
pi / (3 i), offset by an extra pi / (3 i) on even rings, at radius i
around the center. -/
noncomputable def ring_point (i j : ℕ) (cx cy : ℝ) : ℝ × ℝ :=
  let angle : ℝ :=
    if i % 2 = 0 then (j : ℝ) * Real.pi / (3 * i) + Real.pi / (3 * i)
    else (j : ℝ) * Real.pi / (3 * i)
  (cx + (i : ℝ) * Real.cos angle, cy + (i : ℝ) * Real.sin angle)

/-- All 6 i points of ring i, in angular order j = 0, 1, ..., 6 i - 1. -/
noncomputable def ring_list (i : ℕ) (cx cy : ℝ) : List (ℝ × ℝ) :=
  (List.range (6 * i)).map fun j => ring_point i j cx cy

/-- hexagonal_grid_layout (lines 106-125): the center (x/2, y/2)
followed by rings 1 up to num_rings, each ring in angular order. -/
noncomputable def hexagonal_grid_layout (num_cells : ℤ) (x y : ℤ) :
    List (ℝ × ℝ) :=
  let cx := (x : ℝ) / 2
  let cy := (y : ℝ) / 2
  (cx, cy) ::
    ((List.range (num_rings num_cells).toNat).map fun k =>
      ring_list (k + 1) cx cy).flatten

section LayoutLemmas

lemma sqrt_eq_of_sq {a b : ℝ} (hb : 0 ≤ b) (h : b ^ 2 = a) :
    Real.sqrt a = b := by
  rw [← h, Real.sqrt_sq hb]

lemma ring_list_length (i : ℕ) (cx cy : ℝ) :
    (ring_list i cx cy).length = 6 * i := by
  simp [ring_list]

/-- Every point of ring i lies at distance exactly i from the center. -/
lemma ring_point_radius (i j : ℕ) (cx cy : ℝ) :
    Real.sqrt (((ring_point i j cx cy).1 - cx) ^ 2 +
      ((ring_point i j cx cy).2 - cy) ^ 2) = (i : ℝ) := by
  have h : ((ring_point i j cx cy).1 - cx) ^ 2 +
      ((ring_point i j cx cy).2 - cy) ^ 2 = (i : ℝ) ^ 2 := by
    simp only [ring_point]
    set θ : ℝ := if i % 2 = 0 then (j : ℝ) * Real.pi / (3 * i) + Real.pi / (3 * i)
      else (j : ℝ) * Real.pi / (3 * i) with hθ
    have hcs := Real.sin_sq_add_cos_sq θ
    ring_nf
    nlinarith [hcs]
  rw [h, Real.sqrt_sq (by positivity)]

lemma rings_flatten_length (m : ℕ) (cx cy : ℝ) :
    (((List.range m).map fun k => ring_list (k + 1) cx cy).flatten).length =
    3 * m * (m + 1) := by
  induction m with
  | zero => simp
  | succ m ih =>
      rw [List.range_succ]
      simp only [List.map_append, List.flatten_append, List.length_append, ih,
        List.map_cons, List.map_nil, List.flatten_cons, List.flatten_nil,
        ring_list_length, List.length_nil]
      ring

lemma hexagonal_grid_layout_length (num_cells x y : ℤ) :
    (hexagonal_grid_layout num_cells x y).length =
    1 + 3 * (num_rings num_cells).toNat * ((num_rings num_cells).toNat + 1) := by
  have h := rings_flatten_length (num_rings num_cells).toNat
    ((x : ℝ) / 2) ((y : ℝ) / 2)
  simp only [hexagonal_grid_layout, List.length_cons]
  rw [h]
  omega

lemma num_rings_seven : num_rings 7 = 2 := by
  have h : (12 * ((7 : ℤ) : ℝ) - 3) = 81 := by norm_num
  have h9 : Real.sqrt 81 = 9 := sqrt_eq_of_sq (by norm_num) (by norm_num)
  rw [num_rings, h, h9, show (1 : ℝ) / 2 + 9 / 6 = ((2 : ℤ) : ℝ) by norm_num,
    Int.floor_intCast]

lemma num_rings_nineteen : num_rings 19 = 3 := by
  have h : (12 * ((19 : ℤ) : ℝ) - 3) = 225 := by norm_num
  have h15 : Real.sqrt 225 = 15 := sqrt_eq_of_sq (by norm_num) (by norm_num)
  rw [num_rings, h, h15, show (1 : ℝ) / 2 + 15 / 6 = ((3 : ℤ) : ℝ) by norm_num,
    Int.floor_intCast]

lemma num_rings_nonpos {num_cells : ℤ} (h : num_cells < 1) :
    num_rings num_cells = 0 := by
  have hle : (num_cells : ℝ) ≤ 0 := by
    have : num_cells ≤ 0 := by omega
    exact_mod_cast this
  have hrad : 12 * (num_cells : ℝ) - 3 ≤ 0 := by nlinarith
  rw [num_rings, Real.sqrt_eq_zero_of_nonpos hrad,
    show (1 : ℝ) / 2 + 0 / 6 = 1 / 2 by norm_num]
  rw [show ((0 : ℤ)) = ⌊(1 : ℝ) / 2⌋ from by norm_num [Int.floor_eq_iff]]

/-- For a positive cell count the ring-count formula yields at least one
ring, and enough rings that the total point count covers num_cells. -/
lemma num_rings_pos {num_cells : ℤ} (h : 1 ≤ num_cells) :
    1 ≤ num_rings num_cells := by
  rw [num_rings, Int.le_floor]
  have h9 : (9 : ℝ) ≤ 12 * (num_cells : ℝ) - 3 := by
    have : (1 : ℝ) ≤ (num_cells : ℝ) := by exact_mod_cast h
    nlinarith
  have h3 : (3 : ℝ) ≤ Real.sqrt (12 * (num_cells : ℝ) - 3) :=
    (Real.le_sqrt (by norm_num) (by linarith)).2 (by nlinarith)
  push_cast
  linarith

lemma num_rings_covers {num_cells : ℤ} (h : 1 ≤ num_cells) :
    num_cells ≤ 1 + 3 * num_rings num_cells * (num_rings num_cells + 1) := by
  set r : ℤ := num_rings num_cells with hr
  have hr1 : 1 ≤ r := num_rings_pos h
  have hfloor : (1 : ℝ) / 2 + Real.sqrt (12 * (num_cells : ℝ) - 3) / 6 < r + 1 := by
    rw [hr, num_rings]
    exact Int.lt_floor_add_one _
  have hrad : (0 : ℝ) ≤ 12 * (num_cells : ℝ) - 3 := by
    have : (1 : ℝ) ≤ (num_cells : ℝ) := by exact_mod_cast h
    nlinarith
  have hs : Real.sqrt (12 * (num_cells : ℝ) - 3) < 6 * (r : ℝ) + 3 := by
    nlinarith [hfloor]
  have hsq : 12 * (num_cells : ℝ) - 3 < (6 * (r : ℝ) + 3) ^ 2 := by
    have hnn : (0 : ℝ) ≤ Real.sqrt (12 * (num_cells : ℝ) - 3) :=
      Real.sqrt_nonneg _
    nlinarith [Real.sq_sqrt hrad]
  have hlt : (num_cells : ℝ) < 1 + 3 * (r : ℝ) * ((r : ℝ) + 1) + 1 := by nlinarith
  have hint : num_cells < 1 + 3 * r * (r + 1) + 1 := by exact_mod_cast hlt
  omega

end LayoutLemmas

section FullResultLemmas

variable {n : ℕ} (target_spring_length critical_length_delta : ℝ)
variable (cell_points : Fin n → ℝ × ℝ) (cell_types : Fin n → ℤ)
variable (target_areas : Fin n → ℝ) (voronoi_vertices : Fin n → List (ℝ × ℝ))
variable (adjacency_matrix : Fin n → Fin n → Bool)

lemma full_spring_eq (p q : Fin n) :
    (calculate_force_matrix_full n target_spring_length critical_length_delta
      cell_points cell_types target_areas voronoi_vertices
      adjacency_matrix).spring_matrix p q =
    if adjacency_matrix p q = true then
      target_spring_length - cell_distance cell_points p q
    else 0 := by
  simp only [calculate_force_matrix_full]
  rw [fm_loop, foldl_spring]
  simp [List.mem_finRange, FMState.init]

lemma full_distance_eq (p q : Fin n) :
    (calculate_force_matrix_full n target_spring_length critical_length_delta
      cell_points cell_types target_areas voronoi_vertices
      adjacency_matrix).distance_matrix p q =
    if adjacency_matrix p q = true then cell_distance cell_points p q
    else 0 := by
  simp only [calculate_force_matrix_full]
  rw [fm_loop, foldl_distance]
  simp [List.mem_finRange, FMState.init]

lemma full_unit_vector_eq (p q : Fin n) :
    (calculate_force_matrix_full n target_spring_length critical_length_delta
      cell_points cell_types target_areas voronoi_vertices
      adjacency_matrix).unit_vector_matrix p q =
    if adjacency_matrix p q = true then cell_unit_vector cell_points p q
    else (0, 0) := by
  simp only [calculate_force_matrix_full]
  rw [fm_loop, foldl_unit_vector]
  simp [List.mem_finRange, FMState.init]

lemma full_spring_damped_eq (p q : Fin n) :
    (calculate_force_matrix_full n target_spring_length critical_length_delta
      cell_points cell_types target_areas voronoi_vertices
      adjacency_matrix).spring_damped p q =
    if cell_types p = 1 then
      0.1 * (calculate_force_matrix_full n target_spring_length
        critical_length_delta cell_points cell_types target_areas
        voronoi_vertices adjacency_matrix).spring_matrix p q
    else (calculate_force_matrix_full n target_spring_length
      critical_length_delta cell_points cell_types target_areas
      voronoi_vertices adjacency_matrix).spring_matrix p q := by
  simp only [calculate_force_matrix_full]

lemma full_spring_clipped_eq (p q : Fin n) :
    (calculate_force_matrix_full n target_spring_length critical_length_delta
      cell_points cell_types target_areas voronoi_vertices
      adjacency_matrix).spring_clipped p q =
    max ((calculate_force_matrix_full n target_spring_length
      critical_length_delta cell_points cell_types target_areas
      voronoi_vertices adjacency_matrix).spring_damped p q)
      (-critical_length_delta) := by
  simp only [calculate_force_matrix_full]

lemma full_force_eq (p q : Fin n) :
    (calculate_force_matrix_full n target_spring_length critical_length_delta
      cell_points cell_types target_areas voronoi_vertices
      adjacency_matrix).force_matrix p q =
    (((calculate_force_matrix_full n target_spring_length
        critical_length_delta cell_points cell_types target_areas
        voronoi_vertices adjacency_matrix).spring_clipped p q +
      (calculate_force_matrix_full n target_spring_length
        critical_length_delta cell_points cell_types target_areas
        voronoi_vertices adjacency_matrix).pressure_matrix p q) *
      ((calculate_force_matrix_full n target_spring_length
        critical_length_delta cell_points cell_types target_areas
        voronoi_vertices adjacency_matrix).unit_vector_matrix p q).1,
     ((calculate_force_matrix_full n target_spring_length
        critical_length_delta cell_points cell_types target_areas
        voronoi_vertices adjacency_matrix).spring_clipped p q +
      (calculate_force_matrix_full n target_spring_length
        critical_length_delta cell_points cell_types target_areas
        voronoi_vertices adjacency_matrix).pressure_matrix p q) *
      ((calculate_force_matrix_full n target_spring_length
        critical_length_delta cell_points cell_types target_areas
        voronoi_vertices adjacency_matrix).unit_vector_matrix p q).2) := by
  simp only [calculate_force_matrix_full]

end FullResultLemmas

/-! ## Concrete two-cell inputs used to witness the force-matrix claims -/

/-- Two cells at (0,0) and (2,0), so their distance is exactly 2. -/
noncomputable def ex_points : Fin 2 → ℝ × ℝ :=
  fun k => if k = 0 then (0, 0) else (2, 0)

/-- Both cells ordinary (type 0). -/
def ex_types_zero : Fin 2 → ℤ := fun _ => 0

/-- Cell 0 boundary-type (type 1), cell 1 ordinary. -/
def ex_types_bdry : Fin 2 → ℤ := fun k => if k = 0 then 1 else 0

/-- Unit target areas. -/
noncomputable def ex_areas : Fin 2 → ℝ := fun _ => 1

/-- A unit-square Voronoi polygon for both cells. -/
noncomputable def ex_voronoi : Fin 2 → List (ℝ × ℝ) :=
  fun _ => [(0, 0), (1, 0), (1, 1), (0, 1)]

/-- Mutually adjacent two-cell system. -/
def ex_adj : Fin 2 → Fin 2 → Bool := fun p q => decide (p ≠ q)

/-- No adjacency at all. -/
def ex_adj_none : Fin 2 → Fin 2 → Bool := fun _ _ => false

lemma ex_distance : cell_distance ex_points 0 1 = 2 := by
  have h : ((ex_points 1).1 - (ex_points 0).1) ^ 2 +
      ((ex_points 1).2 - (ex_points 0).2) ^ 2 = 2 ^ 2 := by
    have h0 : ex_points 0 = (0, 0) := rfl
    have h1 : ex_points 1 = (2, 0) := rfl
    rw [h0, h1]
    norm_num
  rw [cell_distance, h, Real.sqrt_sq (by norm_num)]

/-! ## Claims about the force-matrix assembler -/

/-- C1: for every input to calculate_force_matrix whose adjacency matrix
is symmetric, the pressure contribution folded into the force at entry
(i, j) equals the pressure contribution at entry (j, i) exactly; the
mirrored writes of each row keep the matrix symmetric throughout, so no
double-write or overwrite breaks the equality. -/
theorem claim_C1_pressure_symmetry (n : ℕ)
    (target_spring_length critical_length_delta : ℝ)
    (cell_points : Fin n → ℝ × ℝ) (cell_types : Fin n → ℤ)
    (target_areas : Fin n → ℝ) (voronoi_vertices : Fin n → List (ℝ × ℝ))
    (adjacency_matrix : Fin n → Fin n → Bool)
    (hadj : ∀ p q, adjacency_matrix p q = adjacency_matrix q p)
    (i j : Fin n) :
    (calculate_force_matrix_full n target_spring_length critical_length_delta
      cell_points cell_types target_areas voronoi_vertices
      adjacency_matrix).pressure_matrix i j =
    (calculate_force_matrix_full n target_spring_length critical_length_delta
      cell_points cell_types target_areas voronoi_vertices
      adjacency_matrix).pressure_matrix j i := by
  simp only [calculate_force_matrix_full]
  rw [fm_loop]
  exact foldl_pressure_symm target_spring_length cell_points cell_types
    target_areas voronoi_vertices adjacency_matrix (List.finRange n)
    (FMState.init n) (fun _ _ => rfl) i j

/-- Witness for C1 on the mutually adjacent two-cell system. -/
theorem claim_C1_witness :
    (∀ p q : Fin 2, ex_adj p q = ex_adj q p) ∧
    (calculate_force_matrix_full 2 1 (1 / 2) ex_points ex_types_zero
      ex_areas ex_voronoi ex_adj).pressure_matrix 0 1 =
    (calculate_force_matrix_full 2 1 (1 / 2) ex_points ex_types_zero
      ex_areas ex_voronoi ex_adj).pressure_matrix 1 0 :=
  ⟨by decide, claim_C1_pressure_symmetry 2 1 (1 / 2) ex_points ex_types_zero
    ex_areas ex_voronoi ex_adj (by decide) 0 1⟩

/-- C3: wherever the adjacency entry (i, j) is false the returned force
tensor entry is the zero vector and the returned distance entry is zero;
this holds for every input, in particular for a cell whose whole
adjacency row is false and regardless of the cell's type, and the
computation is total (the empty-neighbour guard skips such rows). -/
theorem claim_C3_no_edge_zero (n : ℕ)
    (target_spring_length critical_length_delta : ℝ)
    (cell_points : Fin n → ℝ × ℝ) (cell_types : Fin n → ℤ)
    (target_areas : Fin n → ℝ) (voronoi_vertices : Fin n → List (ℝ × ℝ))
    (adjacency_matrix : Fin n → Fin n → Bool) (i j : Fin n)
    (h : adjacency_matrix i j = false) :
    (calculate_force_matrix n target_spring_length critical_length_delta
      cell_points cell_types target_areas voronoi_vertices
      adjacency_matrix).1 i j = (0, 0) ∧
    (calculate_force_matrix n target_spring_length critical_length_delta
      cell_points cell_types target_areas voronoi_vertices
      adjacency_matrix).2 i j = 0 := by
  have hfalse : ¬adjacency_matrix i j = true := by simp [h]
  constructor
  · simp only [calculate_force_matrix]
    rw [full_force_eq]
    rw [show (calculate_force_matrix_full n target_spring_length
        critical_length_delta cell_points cell_types target_areas
        voronoi_vertices adjacency_matrix).unit_vector_matrix i j =
        ((0 : ℝ), (0 : ℝ)) from by rw [full_unit_vector_eq, if_neg hfalse]]
    simp
  · simp only [calculate_force_matrix]
    rw [full_distance_eq, if_neg hfalse]

/-- Witness for C3 on a two-cell system with no adjacency. -/
theorem claim_C3_witness :
    ex_adj_none 0 1 = false ∧
    ((calculate_force_matrix 2 1 (1 / 2) ex_points ex_types_zero ex_areas
      ex_voronoi ex_adj_none).1 0 1 = (0, 0) ∧
    (calculate_force_matrix 2 1 (1 / 2) ex_points ex_types_zero ex_areas
      ex_voronoi ex_adj_none).2 0 1 = 0) :=
  ⟨rfl, claim_C3_no_edge_zero 2 1 (1 / 2) ex_points ex_types_zero ex_areas
    ex_voronoi ex_adj_none 0 1 rfl⟩

/-- C4: a boundary-type row (type 1) has its whole spring row multiplied
by the fixed factor 0.1, not conditioned on the neighbour's type, before
the lower clip; so its damped spring row is exactly 0.1 times the
unclipped (damped) spring row of an otherwise-identical ordinary cell. -/
theorem claim_C4_boundary_damping (n : ℕ)
    (target_spring_length critical_length_delta : ℝ)
    (cell_points : Fin n → ℝ × ℝ) (ct1 ct2 : Fin n → ℤ)
    (target_areas : Fin n → ℝ) (voronoi_vertices : Fin n → List (ℝ × ℝ))
    (adjacency_matrix : Fin n → Fin n → Bool) (i : Fin n)
    (h1 : ct1 i = 1) (h2 : ct2 i ≠ 1)
    (hsame : ∀ k, k ≠ i → ct1 k = ct2 k) :
    (∀ j, (calculate_force_matrix_full n target_spring_length
        critical_length_delta cell_points ct1 target_areas voronoi_vertices
        adjacency_matrix).spring_damped i j =
      0.1 * (calculate_force_matrix_full n target_spring_length
        critical_length_delta cell_points ct2 target_areas voronoi_vertices
        adjacency_matrix).spring_damped i j) ∧
    (∀ p q, (calculate_force_matrix_full n target_spring_length
        critical_length_delta cell_points ct1 target_areas voronoi_vertices
        adjacency_matrix).spring_clipped p q =
      max ((calculate_force_matrix_full n target_spring_length
        critical_length_delta cell_points ct1 target_areas voronoi_vertices
        adjacency_matrix).spring_damped p q) (-critical_length_delta)) := by
  constructor
  · intro j
    rw [full_spring_damped_eq, full_spring_damped_eq, if_pos h1, if_neg h2,
      full_spring_eq, full_spring_eq]
  · intro p q
    exact full_spring_clipped_eq target_spring_length critical_length_delta
      cell_points ct1 target_areas voronoi_vertices adjacency_matrix p q

/-- Witness for C4: cell 0 boundary-type versus cell 0 ordinary on the
two-cell system. -/
theorem claim_C4_witness :
    ex_types_bdry 0 = 1 ∧ ex_types_zero 0 ≠ 1 ∧
    (∀ k : Fin 2, k ≠ 0 → ex_types_bdry k = ex_types_zero k) ∧
    (∀ j, (calculate_force_matrix_full 2 1 (1 / 2) ex_points ex_types_bdry
        ex_areas ex_voronoi ex_adj).spring_damped 0 j =
      0.1 * (calculate_force_matrix_full 2 1 (1 / 2) ex_points ex_types_zero
        ex_areas ex_voronoi ex_adj).spring_damped 0 j) :=
  ⟨by decide, by decide, by decide,
    (claim_C4_boundary_damping 2 1 (1 / 2) ex_points ex_types_bdry
      ex_types_zero ex_areas ex_voronoi ex_adj 0 (by decide) (by decide)
      (by decide)).1⟩

lemma ex_spring_clipped (target_spring_length : ℝ) :
    (calculate_force_matrix_full 2 target_spring_length (1 / 2) ex_points
      ex_types_zero ex_areas ex_voronoi ex_adj).spring_clipped 0 1 =
    max (target_spring_length - 2) (-(1 / 2)) := by
  rw [full_spring_clipped_eq, full_spring_damped_eq]
  rw [if_neg (by decide : ¬ex_types_zero 0 = 1)]
  rw [full_spring_eq, if_pos (by decide : ex_adj 0 1 = true), ex_distance]

/-- C5: every spring value is clipped elementwise from below at
-critical_length_delta with no upper clip; with critical_length_delta =
1/2 a spring value of -2 becomes -1/2, while -1/10 and 3 are unchanged
(realised on a two-cell system at distance 2 with target spring lengths
0, 19/10 and 5 respectively). -/
theorem claim_C5_spring_clipping :
    (∀ (n : ℕ) (target_spring_length critical_length_delta : ℝ)
      (cell_points : Fin n → ℝ × ℝ) (cell_types : Fin n → ℤ)
      (target_areas : Fin n → ℝ) (voronoi_vertices : Fin n → List (ℝ × ℝ))
      (adjacency_matrix : Fin n → Fin n → Bool) (p q : Fin n),
      (calculate_force_matrix_full n target_spring_length
        critical_length_delta cell_points cell_types target_areas
        voronoi_vertices adjacency_matrix).spring_clipped p q =
      max ((calculate_force_matrix_full n target_spring_length
        critical_length_delta cell_points cell_types target_areas
        voronoi_vertices adjacency_matrix).spring_damped p q)
        (-critical_length_delta)) ∧
    (calculate_force_matrix_full 2 0 (1 / 2) ex_points ex_types_zero
      ex_areas ex_voronoi ex_adj).spring_clipped 0 1 = -(1 / 2) ∧
    (calculate_force_matrix_full 2 (19 / 10) (1 / 2) ex_points ex_types_zero
      ex_areas ex_voronoi ex_adj).spring_clipped 0 1 = -(1 / 10) ∧
    (calculate_force_matrix_full 2 5 (1 / 2) ex_points ex_types_zero
      ex_areas ex_voronoi ex_adj).spring_clipped 0 1 = 3 := by
  refine ⟨fun n tsl δ cp ct ta vv adj p q =>
    full_spring_clipped_eq tsl δ cp ct ta vv adj p q, ?_, ?_, ?_⟩
  · rw [ex_spring_clipped]
    norm_num
  · rw [ex_spring_clipped]
    rw [show (19 : ℝ) / 10 - 2 = -(1 / 10) by norm_num]
    rw [max_eq_left (by norm_num)]
  · rw [ex_spring_clipped]
    rw [show (5 : ℝ) - 2 = 3 by norm_num]
    rw [max_eq_left (by norm_num)]

/-! ## Claims about boundary reflection -/

lemma angle_cos_ex_below : angle_cos ((0 : ℝ), (0 : ℝ)) (10, 0) (5, -1) < 0 := by
  rw [show angle_cos ((0 : ℝ), (0 : ℝ)) (10, 0) (5, -1) =
      -24 / (Real.sqrt 26 * Real.sqrt 26) from by rw [angle_cos]; norm_num]
  rw [Real.mul_self_sqrt (by norm_num : (0 : ℝ) ≤ 26)]
  norm_num

lemma angle_cos_ex_above : angle_cos ((0 : ℝ), (0 : ℝ)) (10, 0) (5, 1) < 0 := by
  rw [show angle_cos ((0 : ℝ), (0 : ℝ)) (10, 0) (5, 1) =
      -24 / (Real.sqrt 26 * Real.sqrt 26) from by rw [angle_cos]; norm_num]
  rw [Real.mul_self_sqrt (by norm_num : (0 : ℝ) ≤ 26)]
  norm_num

lemma reflection_point_ex_below :
    reflection_point ((0 : ℝ), (0 : ℝ)) (10, 0) (5, -1) = (5, 1) := by
  have h100 : Real.sqrt 100 = 10 := sqrt_eq_of_sq (by norm_num) (by norm_num)
  simp only [reflection_point]
  norm_num [h100, Prod.mk.injEq]

lemma reflection_point_ex_above :
    reflection_point ((0 : ℝ), (0 : ℝ)) (10, 0) (5, 1) = (5, -1) := by
  have h100 : Real.sqrt 100 = 10 := sqrt_eq_of_sq (by norm_num) (by norm_num)
  simp only [reflection_point]
  norm_num [h100, Prod.mk.injEq]

lemma cbr_ex_below :
    calculate_boundary_reflection ((0 : ℝ), (0 : ℝ)) (10, 0) (5, -1) =
    (true, (5, 1)) := by
  rw [calculate_boundary_reflection, if_pos angle_cos_ex_below,
    reflection_point_ex_below]

lemma cbr_ex_above :
    calculate_boundary_reflection ((0 : ℝ), (0 : ℝ)) (10, 0) (5, 1) =
    (true, (5, -1)) := by
  rw [calculate_boundary_reflection, if_pos angle_cos_ex_above,
    reflection_point_ex_above]

/-- C6 counterexample: the claim asserts that for a = (0,0), b = (10,0),
c = (5,1) the function returns flag false, but the angle at c is obtuse
for this point as well (the cosine test does not depend on the side of
the edge), so the flag is true. -/
theorem claim_C6_counterexample :
    ¬(calculate_boundary_reflection ((0 : ℝ), (0 : ℝ)) (10, 0) (5, 1)).1
      = false := by
  rw [cbr_ex_above]
  simp

/-- C6 (amended): when the cosine of the angle between c - a and c - b is
negative the function returns (true, 2 p - c) with p the projection foot
on the edge direction; otherwise it returns flag false.  For a = (0,0),
b = (10,0) the point c = (5,-1) reflects to (5,1), and the point
c = (5,1) also reflects (its angle is obtuse too), to (5,-1). -/
theorem claim_C6_reflection :
    (∀ a b c : ℝ × ℝ, angle_cos a b c < 0 →
      calculate_boundary_reflection a b c = (true, reflection_point a b c)) ∧
    (∀ a b c : ℝ × ℝ, ¬angle_cos a b c < 0 →
      (calculate_boundary_reflection a b c).1 = false) ∧
    calculate_boundary_reflection ((0 : ℝ), (0 : ℝ)) (10, 0) (5, -1) =
      (true, (5, 1)) ∧
    calculate_boundary_reflection ((0 : ℝ), (0 : ℝ)) (10, 0) (5, 1) =
      (true, (5, -1)) := by
  refine ⟨fun a b c h => ?_, fun a b c h => ?_, cbr_ex_below, cbr_ex_above⟩
  · rw [calculate_boundary_reflection, if_pos h]
  · rw [calculate_boundary_reflection, if_neg h]

/-- Witness for C6 at the reflecting input a = (0,0), b = (10,0),
c = (5,-1). -/
theorem claim_C6_witness :
    angle_cos ((0 : ℝ), (0 : ℝ)) (10, 0) (5, -1) < 0 ∧
    calculate_boundary_reflection ((0 : ℝ), (0 : ℝ)) (10, 0) (5, -1) =
      (true, reflection_point ((0 : ℝ), (0 : ℝ)) (10, 0) (5, -1)) :=
  ⟨angle_cos_ex_below,
    claim_C6_reflection.1 ((0 : ℝ), (0 : ℝ)) (10, 0) (5, -1)
      angle_cos_ex_below⟩

/-- Explicit componentwise form of reflection_point. -/
lemma reflection_point_eq (a b c : ℝ × ℝ) :
    reflection_point a b c =
    (2 * (a.1 + ((c.1 - a.1) *
        ((b.1 - a.1) / Real.sqrt ((b.1 - a.1) ^ 2 + (b.2 - a.2) ^ 2)) +
      (c.2 - a.2) *
        ((b.2 - a.2) / Real.sqrt ((b.1 - a.1) ^ 2 + (b.2 - a.2) ^ 2))) *
        ((b.1 - a.1) / Real.sqrt ((b.1 - a.1) ^ 2 + (b.2 - a.2) ^ 2))) - c.1,
     2 * (a.2 + ((c.1 - a.1) *
        ((b.1 - a.1) / Real.sqrt ((b.1 - a.1) ^ 2 + (b.2 - a.2) ^ 2)) +
      (c.2 - a.2) *
        ((b.2 - a.2) / Real.sqrt ((b.1 - a.1) ^ 2 + (b.2 - a.2) ^ 2))) *
        ((b.2 - a.2) / Real.sqrt ((b.1 - a.1) ^ 2 + (b.2 - a.2) ^ 2))) - c.2) :=
  rfl

/-- C10: whenever calculate_boundary_reflection reports a reflection for
an edge with distinct endpoints, the returned point is the mirror image
of c across the line through a and b: the midpoint of c and the returned
point lies on that line, and both points are at the same distance from
it. -/
theorem claim_C10_mirror_image (a b c : ℝ × ℝ) (hab : a ≠ b)
    (hflag : (calculate_boundary_reflection a b c).1 = true) :
    on_line a b
      ((c.1 + (calculate_boundary_reflection a b c).2.1) / 2,
       (c.2 + (calculate_boundary_reflection a b c).2.2) / 2) ∧
    dist_to_line a b (calculate_boundary_reflection a b c).2 =
      dist_to_line a b c := by
  have hcos : angle_cos a b c < 0 := by
    by_contra hcon
    rw [calculate_boundary_reflection, if_neg hcon] at hflag
    exact Bool.false_ne_true hflag
  have hr : (calculate_boundary_reflection a b c).2 = reflection_point a b c := by
    rw [calculate_boundary_reflection, if_pos hcos]
  rw [hr, reflection_point_eq]
  constructor
  · exact ⟨((c.1 - a.1) *
        ((b.1 - a.1) / Real.sqrt ((b.1 - a.1) ^ 2 + (b.2 - a.2) ^ 2)) +
      (c.2 - a.2) *
        ((b.2 - a.2) / Real.sqrt ((b.1 - a.1) ^ 2 + (b.2 - a.2) ^ 2))) /
        Real.sqrt ((b.1 - a.1) ^ 2 + (b.2 - a.2) ^ 2),
      by rw [Prod.mk.injEq]; constructor <;> ring⟩
  · rw [dist_to_line, dist_to_line, cross2, cross2]
    have hkey : (b.1 - a.1, b.2 - a.2).1 *
        ((2 * (a.2 + ((c.1 - a.1) *
            ((b.1 - a.1) / Real.sqrt ((b.1 - a.1) ^ 2 + (b.2 - a.2) ^ 2)) +
          (c.2 - a.2) *
            ((b.2 - a.2) / Real.sqrt ((b.1 - a.1) ^ 2 + (b.2 - a.2) ^ 2))) *
            ((b.2 - a.2) / Real.sqrt ((b.1 - a.1) ^ 2 + (b.2 - a.2) ^ 2))) -
          c.2) - a.2) -
        (b.1 - a.1, b.2 - a.2).2 *
        ((2 * (a.1 + ((c.1 - a.1) *
            ((b.1 - a.1) / Real.sqrt ((b.1 - a.1) ^ 2 + (b.2 - a.2) ^ 2)) +
          (c.2 - a.2) *
            ((b.2 - a.2) / Real.sqrt ((b.1 - a.1) ^ 2 + (b.2 - a.2) ^ 2))) *
            ((b.1 - a.1) / Real.sqrt ((b.1 - a.1) ^ 2 + (b.2 - a.2) ^ 2))) -
          c.1) - a.1) =
        -((b.1 - a.1, b.2 - a.2).1 * (c.2 - a.2) -
          (b.1 - a.1, b.2 - a.2).2 * (c.1 - a.1)) := by
      simp only
      ring
    rw [hkey, abs_neg]

/-- Witness for C10 at a = (0,0), b = (10,0), c = (5,-1). -/
theorem claim_C10_witness :
    (((0 : ℝ), (0 : ℝ)) : ℝ × ℝ) ≠ (10, 0) ∧
    (calculate_boundary_reflection ((0 : ℝ), (0 : ℝ)) (10, 0) (5, -1)).1
      = true ∧
    (on_line ((0 : ℝ), (0 : ℝ)) (10, 0)
      (((5 : ℝ) +
        (calculate_boundary_reflection ((0 : ℝ), (0 : ℝ)) (10, 0)
          (5, -1)).2.1) / 2,
       ((-1 : ℝ) +
        (calculate_boundary_reflection ((0 : ℝ), (0 : ℝ)) (10, 0)
          (5, -1)).2.2) / 2) ∧
    dist_to_line ((0 : ℝ), (0 : ℝ)) (10, 0)
      (calculate_boundary_reflection ((0 : ℝ), (0 : ℝ)) (10, 0) (5, -1)).2 =
      dist_to_line ((0 : ℝ), (0 : ℝ)) (10, 0) (5, -1)) := by
  have hne : (((0 : ℝ), (0 : ℝ)) : ℝ × ℝ) ≠ (10, 0) := by
    simp [Prod.ext_iff]
  have hflag : (calculate_boundary_reflection ((0 : ℝ), (0 : ℝ)) (10, 0)
      (5, -1)).1 = true := by
    rw [cbr_ex_below]
  exact ⟨hne, hflag,
    claim_C10_mirror_image ((0 : ℝ), (0 : ℝ)) (10, 0) (5, -1) hne hflag⟩

/-! ## Claims about the hexagonal lattice generator -/

/-- C2 counterexample: the claim asserts that num_cells = 7 yields
exactly 1 ring, but the ring-count formula gives
floor(1/2 + sqrt(81)/6) = floor(2) = 2. -/
theorem claim_C2_counterexample : num_rings 7 ≠ 1 := by
  rw [num_rings_seven]
  decide

/-- C2 (amended): the generator called with num_cells = 7 computes 2
rings (returning 1 + 6 + 12 = 19 points) and with num_cells = 19
computes 3 rings (returning 1 + 6 + 12 + 18 = 37 points); the ring count
is the integer floor of 1/2 + sqrt(12 num_cells - 3)/6, which
over-provisions exactly at the hexagonal numbers. -/
theorem claim_C2_ring_count :
    num_rings 7 = 2 ∧
    (∀ x y : ℤ, (hexagonal_grid_layout 7 x y).length = 19) ∧
    num_rings 19 = 3 ∧
    (∀ x y : ℤ, (hexagonal_grid_layout 19 x y).length = 37) ∧
    (∀ num_cells : ℤ, num_rings num_cells =
      ⌊1 / 2 + Real.sqrt (12 * (num_cells : ℝ) - 3) / 6⌋) := by
  refine ⟨num_rings_seven, fun x y => ?_, num_rings_nineteen,
    fun x y => ?_, fun _ => rfl⟩
  · rw [hexagonal_grid_layout_length, num_rings_seven]
    rfl
  · rw [hexagonal_grid_layout_length, num_rings_nineteen]
    rfl

/-- C7 counterexample: the claim asserts the generator rejects any
num_cells below 1, but the source has no validation at all; at
num_cells = 0 it still returns a point sequence, just the center. -/
theorem claim_C7_counterexample :
    hexagonal_grid_layout 0 10 10 = [((5 : ℝ), (5 : ℝ))] := by
  have h := num_rings_nonpos (show (0 : ℤ) < 1 by decide)
  simp only [hexagonal_grid_layout, h, Int.toNat_zero, List.range_zero,
    List.map_nil, List.flatten_nil]
  norm_num

/-- C7 (amended): for num_cells below 1 the generator does not reject:
the radicand of the ring-count formula is negative (NaN in the source,
square root zero in the real-valued model), no ring is produced, and the
call returns just the center point. -/
theorem claim_C7_no_rejection (num_cells x y : ℤ) (h : num_cells < 1) :
    hexagonal_grid_layout num_cells x y = [((x : ℝ) / 2, (y : ℝ) / 2)] := by
  simp only [hexagonal_grid_layout, num_rings_nonpos h, Int.toNat_zero,
    List.range_zero, List.map_nil, List.flatten_nil]

/-- Witness for C7 at num_cells = 0. -/
theorem claim_C7_witness :
    (0 : ℤ) < 1 ∧
    hexagonal_grid_layout 0 10 10 = [((10 : ℝ) / 2, (10 : ℝ) / 2)] :=
  ⟨by decide, claim_C7_no_rejection 0 10 10 (by decide)⟩

/-- C8: for num_cells at least 1 the generator returns at least
num_cells points, ordered center first and then the rings in sequence;
ring i contributes 6 i points, each at radius exactly i from the
center. -/
theorem claim_C8_layout_structure (num_cells x y : ℤ)
    (h : 1 ≤ num_cells) :
    num_cells ≤ ((hexagonal_grid_layout num_cells x y).length : ℤ) ∧
    hexagonal_grid_layout num_cells x y =
      ((x : ℝ) / 2, (y : ℝ) / 2) ::
        ((List.range (num_rings num_cells).toNat).map fun k =>
          ring_list (k + 1) ((x : ℝ) / 2) ((y : ℝ) / 2)).flatten ∧
    (∀ (i : ℕ) (cx cy : ℝ), (ring_list i cx cy).length = 6 * i) ∧
    (∀ (i j : ℕ) (cx cy : ℝ),
      Real.sqrt (((ring_point i j cx cy).1 - cx) ^ 2 +
        ((ring_point i j cx cy).2 - cy) ^ 2) = (i : ℝ)) := by
  refine ⟨?_, rfl, ring_list_length, ring_point_radius⟩
  rw [hexagonal_grid_layout_length]
  have hpos := num_rings_pos h
  have htn : (((num_rings num_cells).toNat : ℤ)) = num_rings num_cells :=
    Int.toNat_of_nonneg (by linarith)
  push_cast [htn]
  linarith [num_rings_covers h]

/-- Witness for C8 at num_cells = 1. -/
theorem claim_C8_witness :
    (1 : ℤ) ≤ 1 ∧
    (1 : ℤ) ≤ ((hexagonal_grid_layout 1 0 0).length : ℤ) :=
  ⟨le_refl 1, (claim_C8_layout_structure 1 0 0 (le_refl 1)).1⟩

/-! ## Claim about polygon_area -/

/-- C9: polygon_area is half the absolute Shoelace sum with wrap-around
indexing, hence non-negative; it is invariant under reversing the vertex
order (winding direction), and the unit square yields area 1 in both
windings. -/
theorem claim_C9_polygon_area :
    (∀ vertices : List (ℝ × ℝ),
      polygon_area vertices = 0.5 * |shoelace_sum vertices|) ∧
    (∀ vertices : List (ℝ × ℝ), 0 ≤ polygon_area vertices) ∧
    (∀ vertices : List (ℝ × ℝ),
      polygon_area vertices.reverse = polygon_area vertices) ∧
    polygon_area [((0 : ℝ), (0 : ℝ)), (1, 0), (1, 1), (0, 1)] = 1 ∧
    polygon_area [((0 : ℝ), (1 : ℝ)), (1, 1), (1, 0), (0, 0)] = 1 := by
  have hsq : shoelace_sum [((0 : ℝ), (0 : ℝ)), (1, 0), (1, 1), (0, 1)] = 2 := by
    simp only [shoelace_sum, List.rotate_cons_succ, List.rotate_zero,
      List.cons_append, List.nil_append, List.zipWith_cons_cons,
      List.zipWith_nil_right, List.sum_cons, List.sum_nil, shoelace_cross]
    norm_num
  have hrevsq : [((0 : ℝ), (1 : ℝ)), (1, 1), (1, 0), (0, 0)] =
      [((0 : ℝ), (0 : ℝ)), (1, 0), (1, 1), (0, 1)].reverse := rfl
  refine ⟨fun v => rfl, fun v => by rw [polygon_area]; positivity,
    fun v => by rw [polygon_area, polygon_area, shoelace_sum_reverse, abs_neg],
    ?_, ?_⟩
  · rw [polygon_area, hsq]
    norm_num
  · rw [hrevsq, polygon_area, shoelace_sum_reverse, hsq]
    norm_num

end CiliaSim
